import Mathlib

/-!
Shallow embedding of the `lr-schedulers` Rust crate: each scheduler struct
becomes a Lean structure, `new` constructors and `step`/`get_lr` methods become
functions over that structure, `f64` is modelled by `ℝ`, and `usize` by `ℕ`.
Rust integer division, which panics on a zero divisor, is modelled by an
`Option`-valued division.  Mutation of `&mut self` is modelled by explicit
state passing: `stepFn` returns the updated state (named `stepFn` because the
Rust struct field `step` already claims the name `step` in Lean).
-/

namespace LrSchedulers

/-- Rust `usize` division `a / b`: panics (here `none`) when `b = 0`. -/
def rustDiv? (a b : ℕ) : Option ℕ :=
  if b = 0 then none else some (a / b)

/-! ### ConstantLR (src/constant.rs) -/

/-- State of `ConstantLR`: fields as in the Rust struct. -/
@[ext] structure ConstantLR where
  lr : ℝ
  base_lr : ℝ
  step : ℕ
  total_iters : ℕ

/-- Rust `ConstantLR::new(base_lr, factor, total_iters, init_step)`. -/
noncomputable def ConstantLR.new (base_lr factor : ℝ) (total_iters init_step : ℕ) :
    ConstantLR :=
  { lr := if init_step < total_iters then factor * base_lr else base_lr
    base_lr := base_lr
    step := init_step
    total_iters := total_iters }

/-- Rust `ConstantLR::step(&mut self, _loss)`. -/
noncomputable def ConstantLR.stepFn (s : ConstantLR) (_loss : ℝ) : ConstantLR :=
  { s with
    step := s.step + 1
    lr := if s.step + 1 = s.total_iters then s.base_lr else s.lr }

/-- Rust `ConstantLR::get_lr(&self)` (this variant takes no loss argument). -/
noncomputable def ConstantLR.get_lr (s : ConstantLR) : ℝ := s.lr

/-- Apply `stepFn` `n` times (the loss argument is unused by this scheduler). -/
noncomputable def ConstantLR.stepIter : ℕ → ConstantLR → ConstantLR
  | 0, s => s
  | n + 1, s => (ConstantLR.stepIter n s).stepFn 0

lemma ConstantLR.constant_stepIter_new (b f : ℝ) (ti k : ℕ) :
    ∀ n, ConstantLR.stepIter n (ConstantLR.new b f ti k) =
      { lr := if k + n < ti then f * b else b
        base_lr := b
        step := k + n
        total_iters := ti } := by
  intro n
  induction n with
  | zero =>
    simp [ConstantLR.stepIter, ConstantLR.new]
  | succ n ih =>
    rw [ConstantLR.stepIter, ih]
    have h3 : k + n + 1 = k + (n + 1) := by omega
    by_cases h1 : k + n + 1 = ti
    · simp [ConstantLR.stepFn, h1, show ¬ (k + (n + 1) < ti) by omega]
      omega
    · by_cases h2 : k + n < ti
      · simp [ConstantLR.stepFn, h1, h2, show k + (n + 1) < ti by omega, h3,
          show ¬ (k + (n + 1) = ti) by omega]
      · simp [ConstantLR.stepFn, h1, h2, show ¬ (k + (n + 1) < ti) by omega, h3,
          show ¬ (k + (n + 1) = ti) by omega]

/-! ### ExponentialLR (src/exponential.rs) -/

/-- State of `ExponentialLR`. -/
@[ext] structure ExponentialLR where
  lr : ℝ
  gamma : ℝ

/-- Rust `ExponentialLR::new(base_lr, gamma, init_step)`: `lr = base_lr * gamma^init_step`. -/
noncomputable def ExponentialLR.new (base_lr gamma : ℝ) (init_step : ℕ) : ExponentialLR :=
  { lr := base_lr * gamma ^ init_step, gamma := gamma }

/-- Rust `ExponentialLR::step`: `self.lr *= self.gamma`. -/
noncomputable def ExponentialLR.stepFn (s : ExponentialLR) (_loss : ℝ) : ExponentialLR :=
  { s with lr := s.lr * s.gamma }

/-- Rust `ExponentialLR::get_lr(&self, _loss)`. -/
noncomputable def ExponentialLR.get_lr (s : ExponentialLR) (_loss : ℝ) : ℝ := s.lr

noncomputable def ExponentialLR.stepIter : ℕ → ExponentialLR → ExponentialLR
  | 0, s => s
  | n + 1, s => (ExponentialLR.stepIter n s).stepFn 0

lemma ExponentialLR.exponential_stepIter_new (b g : ℝ) :
    ∀ n, ExponentialLR.stepIter n (ExponentialLR.new b g 0) = ExponentialLR.new b g n := by
  intro n
  induction n with
  | zero => rfl
  | succ n ih =>
    rw [ExponentialLR.stepIter, ih]
    ext <;> simp [ExponentialLR.stepFn, ExponentialLR.new]
    ring

/-! ### StepLR (src/step.rs)

`StepLR::new` computes `init_step / step_size` with no guard, so a zero
`step_size` reaches the integer division operator and panics; the constructor
is therefore `Option`-valued here.  `StepLR::step` performs the same division,
but every state produced by a successful `new` has `step_size ≠ 0`, so it is
modelled with total `ℕ` division. -/

/-- State of `StepLR`. -/
@[ext] structure StepLR where
  lr : ℝ
  base_lr : ℝ
  step : ℕ
  step_size : ℕ
  gamma : ℝ

/-- Rust `StepLR::new(base_lr, step_size, gamma, init_step)`; `none` models the Rust
panic of the unguarded `init_step / step_size` when `step_size = 0`. -/
noncomputable def StepLR.new (base_lr : ℝ) (step_size : ℕ) (gamma : ℝ) (init_step : ℕ) :
    Option StepLR :=
  match rustDiv? init_step step_size with
  | none => none
  | some q =>
    some { lr := base_lr * gamma ^ q
           base_lr := base_lr
           step := init_step
           step_size := step_size
           gamma := gamma }

/-- Rust `StepLR::step(&mut self, _loss)`. -/
noncomputable def StepLR.stepFn (s : StepLR) (_loss : ℝ) : StepLR :=
  { s with
    step := s.step + 1
    lr := s.base_lr * s.gamma ^ ((s.step + 1) / s.step_size) }

/-- Rust `StepLR::get_lr(&self, _loss)`. -/
noncomputable def StepLR.get_lr (s : StepLR) (_loss : ℝ) : ℝ := s.lr

noncomputable def StepLR.stepIter : ℕ → StepLR → StepLR
  | 0, s => s
  | n + 1, s => (StepLR.stepIter n s).stepFn 0

lemma StepLR.stepIter_state (b g : ℝ) (ss j : ℕ) :
    ∀ n, StepLR.stepIter n
        { lr := b * g ^ (j / ss), base_lr := b, step := j, step_size := ss, gamma := g } =
      { lr := b * g ^ ((j + n) / ss), base_lr := b, step := j + n, step_size := ss,
        gamma := g } := by
  intro n
  induction n with
  | zero => rfl
  | succ n ih =>
    rw [StepLR.stepIter, ih]
    simp [StepLR.stepFn, StepLR.mk.injEq, Nat.add_assoc]

/-! ### MultiStepLR (src/multistep.rs) -/

/-- State of `MultiStepLR`; `milestones` is stored sorted by `new`. -/
@[ext] structure MultiStepLR where
  lr : ℝ
  base_lr : ℝ
  step : ℕ
  milestones : List ℕ
  gamma : ℝ

/-- Milestones passed at step `s`: `milestones.iter().filter(|&&m| m <= s).count()`. -/
def MultiStepLR.passed (milestones : List ℕ) (s : ℕ) : ℕ :=
  milestones.countP (fun m => m ≤ s)

/-- Rust `MultiStepLR::new(base_lr, milestones, gamma, init_step)`; `sort_unstable`
becomes `mergeSort`. -/
noncomputable def MultiStepLR.new (base_lr : ℝ) (milestones : List ℕ) (gamma : ℝ)
    (init_step : ℕ) : MultiStepLR :=
  let sorted := milestones.mergeSort (fun a b => a ≤ b)
  { lr := base_lr * gamma ^ MultiStepLR.passed sorted init_step
    base_lr := base_lr
    step := init_step
    milestones := sorted
    gamma := gamma }

/-- Rust `MultiStepLR::step(&mut self, _loss)`. -/
noncomputable def MultiStepLR.stepFn (s : MultiStepLR) (_loss : ℝ) : MultiStepLR :=
  { s with
    step := s.step + 1
    lr := s.base_lr * s.gamma ^ MultiStepLR.passed s.milestones (s.step + 1) }

/-- Rust `MultiStepLR::get_lr(&self)` (this variant takes no loss argument). -/
noncomputable def MultiStepLR.get_lr (s : MultiStepLR) : ℝ := s.lr

noncomputable def MultiStepLR.stepIter : ℕ → MultiStepLR → MultiStepLR
  | 0, s => s
  | n + 1, s => (MultiStepLR.stepIter n s).stepFn 0

lemma MultiStepLR.multistep_stepIter_new (b g : ℝ) (ms : List ℕ) :
    ∀ n, MultiStepLR.stepIter n (MultiStepLR.new b ms g 0) = MultiStepLR.new b ms g n := by
  intro n
  induction n with
  | zero => rfl
  | succ n ih =>
    rw [MultiStepLR.stepIter, ih]
    simp [MultiStepLR.stepFn, MultiStepLR.new]

/-! ### LinearLR (src/linear.rs) -/

/-- State of `LinearLR`. -/
@[ext] structure LinearLR where
  lr : ℝ
  base_lr : ℝ
  step : ℕ
  total_iters : ℕ
  grad : ℝ
  start_factor : ℝ
  end_factor : ℝ

/-- Rust `LinearLR::new(base_lr, start_factor, end_factor, total_iters, init_step)`,
with its three branches (`init_step >= total_iters`, `init_step == 0`, midway). -/
noncomputable def LinearLR.new (base_lr start_factor end_factor : ℝ)
    (total_iters init_step : ℕ) : LinearLR :=
  if total_iters ≤ init_step then
    { lr := end_factor * base_lr
      base_lr := base_lr
      step := init_step
      total_iters := total_iters
      grad := 0
      start_factor := start_factor
      end_factor := end_factor }
  else if init_step = 0 then
    { lr := start_factor * base_lr
      base_lr := base_lr
      step := 0
      total_iters := total_iters
      grad := (end_factor - start_factor) / total_iters
      start_factor := start_factor
      end_factor := end_factor }
  else
    { lr := base_lr * ((init_step : ℝ) * ((end_factor - start_factor) / total_iters)
        + start_factor)
      base_lr := base_lr
      step := init_step
      total_iters := total_iters
      grad := (end_factor - start_factor) / total_iters
      start_factor := start_factor
      end_factor := end_factor }

/-- Rust `LinearLR::step(&mut self, _loss)`. -/
noncomputable def LinearLR.stepFn (s : LinearLR) (_loss : ℝ) : LinearLR :=
  { s with
    step := s.step + 1
    lr := if s.total_iters ≤ s.step + 1 then s.end_factor * s.base_lr
      else s.base_lr * (((s.step : ℝ) + 1) * s.grad + s.start_factor) }

/-- Rust `LinearLR::get_lr(&self)` (this variant takes no loss argument). -/
noncomputable def LinearLR.get_lr (s : LinearLR) : ℝ := s.lr

noncomputable def LinearLR.stepIter : ℕ → LinearLR → LinearLR
  | 0, s => s
  | n + 1, s => (LinearLR.stepIter n s).stepFn 0

lemma LinearLR.linear_stepIter_new (b sf ef : ℝ) (ti k : ℕ) :
    ∀ n, LinearLR.stepIter n (LinearLR.new b sf ef ti k) =
      { lr := if k + n < ti then b * ((k + n : ℕ) * ((ef - sf) / ti) + sf) else ef * b
        base_lr := b
        step := k + n
        total_iters := ti
        grad := if ti ≤ k then 0 else (ef - sf) / ti
        start_factor := sf
        end_factor := ef } := by
  intro n
  induction n with
  | zero =>
    rw [LinearLR.stepIter, LinearLR.new]
    by_cases h1 : ti ≤ k
    · simp [h1, show ¬ k < ti by omega]
    · by_cases h2 : k = 0
      · subst h2
        simp [h1, show (0 : ℕ) < ti by omega]
        ring
      · simp [h2, h1, show k < ti by omega]
  | succ n ih =>
    rw [LinearLR.stepIter, ih]
    by_cases h1 : k + (n + 1) < ti
    · have hk : ¬ ti ≤ k := by omega
      simp [LinearLR.stepFn, show ¬ (ti ≤ k + n + 1) by omega, h1, hk]
      constructor
      · left
        left
        ring
      · omega
    · simp [LinearLR.stepFn, show ti ≤ k + n + 1 by omega, h1]
      omega

/-! ### PolynomialLR (src/polynomial.rs) -/

/-- State of `PolynomialLR`. -/
@[ext] structure PolynomialLR where
  lr : ℝ
  base_lr : ℝ
  step : ℕ
  total_iters : ℕ
  power : ℝ

/-- Rust `PolynomialLR::new(base_lr, total_iters, power, init_step)`; `powf` is `rpow`. -/
noncomputable def PolynomialLR.new (base_lr : ℝ) (total_iters : ℕ) (power : ℝ)
    (init_step : ℕ) : PolynomialLR :=
  { lr := if total_iters ≤ init_step then 0
      else base_lr * Real.rpow (1 - (init_step : ℝ) / total_iters) power
    base_lr := base_lr
    step := init_step
    total_iters := total_iters
    power := power }

/-- Rust `PolynomialLR::step(&mut self, _loss)`. -/
noncomputable def PolynomialLR.stepFn (s : PolynomialLR) (_loss : ℝ) : PolynomialLR :=
  { s with
    step := s.step + 1
    lr := if s.total_iters ≤ s.step + 1 then 0
      else s.base_lr * Real.rpow (1 - ((s.step : ℝ) + 1) / s.total_iters) s.power }

/-- Rust `PolynomialLR::get_lr(&self, _loss)`. -/
noncomputable def PolynomialLR.get_lr (s : PolynomialLR) (_loss : ℝ) : ℝ := s.lr

noncomputable def PolynomialLR.stepIter : ℕ → PolynomialLR → PolynomialLR
  | 0, s => s
  | n + 1, s => (PolynomialLR.stepIter n s).stepFn 0

lemma PolynomialLR.polynomial_stepIter_new (b p : ℝ) (ti k : ℕ) :
    ∀ n, PolynomialLR.stepIter n (PolynomialLR.new b ti p k) =
      PolynomialLR.new b ti p (k + n) := by
  intro n
  induction n with
  | zero => rfl
  | succ n ih =>
    rw [PolynomialLR.stepIter, ih]
    by_cases h1 : ti ≤ k + n + 1
    · simp [PolynomialLR.stepFn, PolynomialLR.new, h1, show ti ≤ k + (n + 1) by omega]
      omega
    · simp [PolynomialLR.stepFn, PolynomialLR.new, h1, show ¬ (ti ≤ k + (n + 1)) by omega]
      constructor
      · left
        congr 1
        ring
      · omega

/-! ### CosineAnnealingLR (src/cosine_annealing.rs) -/

/-- State of `CosineAnnealingLR`. -/
@[ext] structure CosineAnnealingLR where
  lr : ℝ
  eta_0 : ℝ
  eta_1 : ℝ
  step : ℕ
  t_max : ℕ

/-- Rust `periodic_factor(t, t_max)` of src/cosine_annealing.rs: the counter is first
reduced with `rem_euclid(2*t_max)` (which is `%` on `usize`). -/
noncomputable def CosineAnnealingLR.periodic_factor (t t_max : ℕ) : ℝ :=
  0.5 * (1 + Real.cos (((t % (2 * t_max) : ℕ) : ℝ) * Real.pi / (t_max : ℕ)))

/-- Rust `CosineAnnealingLR::new(eta_0, eta_1, t_max, init_step)`; `t_max` is coerced
with `t_max.max(1)`, and `mul_add(a, b, c) = a * b + c` over `ℝ`. -/
noncomputable def CosineAnnealingLR.new (eta_0 eta_1 : ℝ) (t_max init_step : ℕ) :
    CosineAnnealingLR :=
  let t_max' := max t_max 1
  { lr := if init_step = 0 then eta_0
      else (eta_0 - eta_1) * CosineAnnealingLR.periodic_factor init_step t_max' + eta_1
    eta_0 := eta_0
    eta_1 := eta_1
    step := init_step
    t_max := t_max' }

/-- Rust `CosineAnnealingLR::step(&mut self, _loss)`. -/
noncomputable def CosineAnnealingLR.stepFn (s : CosineAnnealingLR) (_loss : ℝ) :
    CosineAnnealingLR :=
  { s with
    step := s.step + 1
    lr := (s.eta_0 - s.eta_1) * CosineAnnealingLR.periodic_factor (s.step + 1) s.t_max
      + s.eta_1 }

/-- Rust `CosineAnnealingLR::get_lr(&self)` (this variant takes no loss argument). -/
noncomputable def CosineAnnealingLR.get_lr (s : CosineAnnealingLR) : ℝ := s.lr

noncomputable def CosineAnnealingLR.stepIter : ℕ → CosineAnnealingLR → CosineAnnealingLR
  | 0, s => s
  | n + 1, s => (CosineAnnealingLR.stepIter n s).stepFn 0

lemma CosineAnnealingLR.periodic_factor_zero (t_max : ℕ) :
    CosineAnnealingLR.periodic_factor 0 t_max = 1 := by
  simp [CosineAnnealingLR.periodic_factor]
  norm_num

lemma CosineAnnealingLR.cosine_stepIter_new (e0 e1 : ℝ) (t : ℕ) :
    ∀ n, CosineAnnealingLR.stepIter n (CosineAnnealingLR.new e0 e1 t 0) =
      CosineAnnealingLR.new e0 e1 t n := by
  intro n
  induction n with
  | zero => rfl
  | succ n ih =>
    rw [CosineAnnealingLR.stepIter, ih]
    by_cases hn : n = 0
    · subst hn
      simp [CosineAnnealingLR.stepFn, CosineAnnealingLR.new]
    · simp [CosineAnnealingLR.stepFn, CosineAnnealingLR.new, hn]

/-! ### CosineAnnealingWarmRestarts (src/cosine_annealing_warm_restarts.rs) -/

/-- State of `CosineAnnealingWarmRestarts`. -/
@[ext] structure CosineAnnealingWarmRestarts where
  lr : ℝ
  eta_0 : ℝ
  eta_1 : ℝ
  step_cur : ℕ
  t_max : ℕ
  t_mult : ℕ

/-- The restart loop `while step > t_max { step -= t_max + 1; t_max *= t_mult }`
shared by `new` and `step`. -/
def restartFold (t_mult : ℕ) (step t_max : ℕ) : ℕ × ℕ :=
  if t_max < step then restartFold t_mult (step - (t_max + 1)) (t_max * t_mult)
  else (step, t_max)
termination_by step
decreasing_by omega

/-- Rust `periodic_factor(t, t_max)` of src/cosine_annealing_warm_restarts.rs: unlike
the plain cosine scheduler there is no modulo here. -/
noncomputable def CosineAnnealingWarmRestarts.periodic_factor (t t_max : ℕ) : ℝ :=
  0.5 * (1 + Real.cos ((t : ℝ) * Real.pi / (t_max : ℕ)))

/-- Rust `CosineAnnealingWarmRestarts::new(eta_0, eta_1, t_0, t_mult, init_step)`;
`t_0` and `t_mult` are coerced with `.max(1)`. -/
noncomputable def CosineAnnealingWarmRestarts.new (eta_0 eta_1 : ℝ)
    (t_0 t_mult init_step : ℕ) : CosineAnnealingWarmRestarts :=
  let t_mult' := max t_mult 1
  let t_0' := max t_0 1
  if init_step = 0 then
    { lr := eta_0, eta_0 := eta_0, eta_1 := eta_1, step_cur := 0, t_max := t_0',
      t_mult := t_mult' }
  else
    let p := restartFold t_mult' init_step t_0'
    { lr := (eta_0 - eta_1) * CosineAnnealingWarmRestarts.periodic_factor p.1 p.2 + eta_1
      eta_0 := eta_0
      eta_1 := eta_1
      step_cur := p.1
      t_max := p.2
      t_mult := t_mult' }

/-- Rust `CosineAnnealingWarmRestarts::step(&mut self, _loss)`. -/
noncomputable def CosineAnnealingWarmRestarts.stepFn (s : CosineAnnealingWarmRestarts)
    (_loss : ℝ) : CosineAnnealingWarmRestarts :=
  let p := restartFold s.t_mult (s.step_cur + 1) s.t_max
  { s with
    step_cur := p.1
    t_max := p.2
    lr := (s.eta_0 - s.eta_1) * CosineAnnealingWarmRestarts.periodic_factor p.1 p.2
      + s.eta_1 }

/-- Rust `CosineAnnealingWarmRestarts::get_lr(&self, _loss)`. -/
noncomputable def CosineAnnealingWarmRestarts.get_lr (s : CosineAnnealingWarmRestarts)
    (_loss : ℝ) : ℝ := s.lr

noncomputable def CosineAnnealingWarmRestarts.stepIter :
    ℕ → CosineAnnealingWarmRestarts → CosineAnnealingWarmRestarts
  | 0, s => s
  | n + 1, s => (CosineAnnealingWarmRestarts.stepIter n s).stepFn 0

/-- The while loop always exits with `step_cur ≤ t_max`. -/
lemma restartFold_fst_le_snd (m : ℕ) :
    ∀ step t, (restartFold m step t).1 ≤ (restartFold m step t).2 := by
  intro step
  induction step using Nat.strong_induction_on with
  | _ step ih =>
    intro t
    rw [restartFold]
    by_cases h : t < step
    · rw [if_pos h]
      exact ih (step - (t + 1)) (by omega) (t * m)
    · rw [if_neg h]
      omega

/-- Folding `n+1` all at once agrees with folding `n` and then one increment:
the loop of `new` replays the loop of `step`. -/
lemma restartFold_succ (m : ℕ) :
    ∀ n t, restartFold m (n + 1) t =
      restartFold m ((restartFold m n t).1 + 1) (restartFold m n t).2 := by
  intro n
  induction n using Nat.strong_induction_on with
  | _ n ih =>
    intro t
    by_cases h : t < n
    · have h1 : restartFold m n t = restartFold m (n - (t + 1)) (t * m) := by
        rw [restartFold, if_pos h]
      have h2 : restartFold m (n + 1) t = restartFold m (n - (t + 1) + 1) (t * m) := by
        rw [restartFold, if_pos (by omega)]
        congr 1
        omega
      rw [h1, h2]
      exact ih (n - (t + 1)) (by omega) (t * m)
    · have h1 : restartFold m n t = (n, t) := by
        rw [restartFold, if_neg h]
      rw [h1]

lemma CosineAnnealingWarmRestarts.warm_stepIter_new (e0 e1 : ℝ) (t0 m : ℕ) :
    ∀ n, CosineAnnealingWarmRestarts.stepIter n
        (CosineAnnealingWarmRestarts.new e0 e1 t0 m 0) =
      { lr := (e0 - e1) * CosineAnnealingWarmRestarts.periodic_factor
            (restartFold (max m 1) n (max t0 1)).1 (restartFold (max m 1) n (max t0 1)).2
          + e1
        eta_0 := e0
        eta_1 := e1
        step_cur := (restartFold (max m 1) n (max t0 1)).1
        t_max := (restartFold (max m 1) n (max t0 1)).2
        t_mult := max m 1 } := by
  intro n
  induction n with
  | zero =>
    rw [CosineAnnealingWarmRestarts.stepIter]
    have h0 : restartFold (max m 1) 0 (max t0 1) = (0, max t0 1) := by
      rw [restartFold, if_neg (by omega)]
    rw [h0]
    simp [CosineAnnealingWarmRestarts.new, CosineAnnealingWarmRestarts.periodic_factor]
    norm_num
  | succ n ih =>
    rw [CosineAnnealingWarmRestarts.stepIter, ih]
    simp only [CosineAnnealingWarmRestarts.stepFn]
    rw [← restartFold_succ]

/-! ### MultiplicativeLR (src/multiplicative.rs) -/

/-- State of `MultiplicativeLR`; the injected closure is stored in the state. -/
@[ext] structure MultiplicativeLR where
  lr : ℝ
  step : ℕ
  lr_lambda : ℕ → ℝ

/-- The constructor loop `for i in 0..init_step { lr *= lr_lambda(i) }`. -/
noncomputable def MultiplicativeLR.seed (base_lr : ℝ) (f : ℕ → ℝ) : ℕ → ℝ
  | 0 => base_lr
  | n + 1 => MultiplicativeLR.seed base_lr f n * f n

/-- Rust `MultiplicativeLR::new(base_lr, lr_lambda, init_step)`. -/
noncomputable def MultiplicativeLR.new (base_lr : ℝ) (lr_lambda : ℕ → ℝ) (init_step : ℕ) :
    MultiplicativeLR :=
  { lr := MultiplicativeLR.seed base_lr lr_lambda init_step
    step := init_step
    lr_lambda := lr_lambda }

/-- Rust `MultiplicativeLR::step(&mut self, _loss)`: multiply first, then increment. -/
noncomputable def MultiplicativeLR.stepFn (s : MultiplicativeLR) (_loss : ℝ) :
    MultiplicativeLR :=
  { s with
    lr := s.lr * s.lr_lambda s.step
    step := s.step + 1 }

/-- Rust `MultiplicativeLR::get_lr(&self, _loss)`. -/
noncomputable def MultiplicativeLR.get_lr (s : MultiplicativeLR) (_loss : ℝ) : ℝ := s.lr

noncomputable def MultiplicativeLR.stepIter : ℕ → MultiplicativeLR → MultiplicativeLR
  | 0, s => s
  | n + 1, s => (MultiplicativeLR.stepIter n s).stepFn 0

lemma MultiplicativeLR.multiplicative_stepIter_new (b : ℝ) (f : ℕ → ℝ) :
    ∀ n, MultiplicativeLR.stepIter n (MultiplicativeLR.new b f 0) =
      MultiplicativeLR.new b f n := by
  intro n
  induction n with
  | zero => rfl
  | succ n ih =>
    rw [MultiplicativeLR.stepIter, ih]
    simp [MultiplicativeLR.stepFn, MultiplicativeLR.new, MultiplicativeLR.seed]

/-! ### OneCycleLR (src/onecycle.rs)

`OneCycleLR::new` takes no `init_step` parameter: `step_count` always starts
at 0.  The `usize` subtractions `total_steps - warmup_steps - annealing_steps`
are modelled by truncated `ℕ` subtraction; for `0 ≤ pct_start ≤ 1` (the range
the crate is specified for) they never underflow, see `oneCycle_phase_split`.
The float-to-`usize` cast of `floor` saturates at 0 on negative input, exactly
as `Nat.floor` does. -/

inductive AnnealStrategy where
  | Cos : AnnealStrategy
  | Linear : AnnealStrategy

/-- State of `OneCycleLR`, including the values calculated by the constructor. -/
@[ext] structure OneCycleLR where
  max_lr : ℝ
  total_steps : ℕ
  pct_start : ℝ
  anneal_strategy : AnnealStrategy
  div_factor : ℝ
  final_div_factor : ℝ
  three_phase : Bool
  step_count : ℕ
  initial_lr : ℝ
  min_lr : ℝ
  warmup_steps : ℕ
  annealing_steps : ℕ
  final_annealing_steps : ℕ

/-- Rust `OneCycleLR::new(max_lr, total_steps, pct_start, anneal_strategy,
div_factor, final_div_factor, three_phase)`. -/
noncomputable def OneCycleLR.new (max_lr : ℝ) (total_steps : ℕ) (pct_start : ℝ)
    (anneal_strategy : AnnealStrategy) (div_factor final_div_factor : ℝ)
    (three_phase : Bool) : OneCycleLR :=
  let initial_lr := max_lr / div_factor
  let min_lr := initial_lr / final_div_factor
  let warmup_steps := ⌊(total_steps : ℝ) * pct_start⌋₊
  let pair :=
    if three_phase then
      let annealing_steps := ⌊(total_steps : ℝ) * (1 - pct_start) / 2⌋₊
      (annealing_steps, total_steps - warmup_steps - annealing_steps)
    else
      (total_steps - warmup_steps, 0)
  { max_lr := max_lr
    total_steps := total_steps
    pct_start := pct_start
    anneal_strategy := anneal_strategy
    div_factor := div_factor
    final_div_factor := final_div_factor
    three_phase := three_phase
    step_count := 0
    initial_lr := initial_lr
    min_lr := min_lr
    warmup_steps := warmup_steps
    annealing_steps := pair.1
    final_annealing_steps := pair.2 }

/-- Rust `OneCycleLR::get_phase_and_progress(&self)`. -/
noncomputable def OneCycleLR.get_phase_and_progress (s : OneCycleLR) : ℕ × ℝ :=
  if s.step_count ≤ s.warmup_steps then
    (1, if 0 < s.warmup_steps then (s.step_count : ℝ) / s.warmup_steps else 1)
  else if s.step_count ≤ s.warmup_steps + s.annealing_steps then
    (2, if 0 < s.annealing_steps
      then ((s.step_count - s.warmup_steps : ℕ) : ℝ) / s.annealing_steps else 1)
  else
    (3, min (if 0 < s.final_annealing_steps
      then ((s.step_count - s.warmup_steps - s.annealing_steps : ℕ) : ℝ)
        / s.final_annealing_steps
      else 1) 1)

/-- Rust `OneCycleLR::interpolate(&self, start, end, progress)`. -/
noncomputable def OneCycleLR.interpolate (s : OneCycleLR) (startVal endVal progress : ℝ) :
    ℝ :=
  match s.anneal_strategy with
  | AnnealStrategy.Linear => startVal + (endVal - startVal) * progress
  | AnnealStrategy.Cos =>
    endVal + (startVal - endVal) * (0.5 * (1 + Real.cos (Real.pi * progress)))

/-- Rust `OneCycleLR::calculate_lr(&self, phase, progress)`. -/
noncomputable def OneCycleLR.calculate_lr (s : OneCycleLR) (phase : ℕ) (progress : ℝ) :
    ℝ :=
  match phase with
  | 1 => s.interpolate s.initial_lr s.max_lr progress
  | 2 => s.interpolate s.max_lr (if s.three_phase then s.initial_lr else s.min_lr) progress
  | 3 => s.interpolate s.initial_lr s.min_lr progress
  | _ => s.min_lr

/-- Rust `OneCycleLR::step(&mut self, _loss)`. -/
noncomputable def OneCycleLR.stepFn (s : OneCycleLR) (_loss : ℝ) : OneCycleLR :=
  { s with step_count := s.step_count + 1 }

/-- Rust `OneCycleLR::get_lr(&self, _loss)`. -/
noncomputable def OneCycleLR.get_lr (s : OneCycleLR) (_loss : ℝ) : ℝ :=
  if s.total_steps ≤ s.step_count then s.min_lr
  else
    let p := s.get_phase_and_progress
    s.calculate_lr p.1 p.2

/-! ### CyclicLR (src/cyclic.rs)

`CyclicLR` takes no `init_step` parameter either.  `get_lr` divides
`step_count` by `step_size_up + step_size_down` with `usize` `/` and `%`, which
panic when both sizes are 0, so `get_lr` is `Option`-valued here.  (The inner
float divisions by `step_size_up`/`step_size_down` are IEEE divisions that can
produce NaN but never panic; with both reachable branch guards they divide a
positive numerator only when the corresponding size is positive, except for the
`0/0` corner with one zero size, which no claim touches and which `ℝ` models
as `0`.)  The Rust `Mode` enum is renamed `CyclicLRMode` because the plateau
scheduler's `Mode` takes that name. -/

inductive CyclicLRMode where
  | Triangular : CyclicLRMode
  | Triangular2 : CyclicLRMode
  | ExpRange : CyclicLRMode

inductive ScaleMode where
  | Cycle : ScaleMode
  | Iterations : ScaleMode

/-- State of `CyclicLR`. -/
@[ext] structure CyclicLR where
  base_lr : ℝ
  max_lr : ℝ
  step_size_up : ℕ
  step_size_down : ℕ
  mode : CyclicLRMode
  gamma : ℝ
  scale_fn : Option ((ℝ → ℝ) × ScaleMode)
  step_count : ℕ

/-- Rust `CyclicLR::new(base_lr, max_lr, step_size_up, step_size_down, mode, gamma,
_scale_fn)`: `step_size_down.unwrap_or(step_size_up)`, no custom scale
function. -/
noncomputable def CyclicLR.new (base_lr max_lr : ℝ) (step_size_up : ℕ)
    (step_size_down : Option ℕ) (mode : CyclicLRMode) (gamma : ℝ) : CyclicLR :=
  { base_lr := base_lr
    max_lr := max_lr
    step_size_up := step_size_up
    step_size_down := step_size_down.getD step_size_up
    mode := mode
    gamma := gamma
    scale_fn := none
    step_count := 0 }

/-- Rust `CyclicLR::step(&mut self, _loss)`. -/
noncomputable def CyclicLR.stepFn (s : CyclicLR) (_loss : ℝ) : CyclicLR :=
  { s with step_count := s.step_count + 1 }

/-- Rust `CyclicLR::get_lr(&self, _loss)`: `none` models the Rust panic of the
unguarded `step_count / cycle_length` and `step_count % cycle_length` when
`step_size_up + step_size_down = 0`. -/
noncomputable def CyclicLR.get_lr (s : CyclicLR) (_loss : ℝ) : Option ℝ :=
  let cycle_length := s.step_size_up + s.step_size_down
  if cycle_length = 0 then none
  else
    let cycle := 1 + s.step_count / cycle_length
    let r := s.step_count % cycle_length
    let x : ℝ :=
      if r ≤ s.step_size_up then (r : ℝ) / s.step_size_up
      else 1 - (((r - s.step_size_up : ℕ) : ℝ) / s.step_size_down)
    let scale_factor :=
      match s.scale_fn with
      | some (f, ScaleMode.Cycle) => f (cycle : ℝ)
      | some (f, ScaleMode.Iterations) => f ((s.step_count % cycle_length : ℕ) : ℝ)
      | none =>
        match s.mode with
        | CyclicLRMode.Triangular => 1
        | CyclicLRMode.Triangular2 => 1 / 2 ^ (cycle - 1)
        | CyclicLRMode.ExpRange => s.gamma ^ s.step_count
    some (s.base_lr + ((s.max_lr - s.base_lr) * scale_factor) * x)

/-! ### ReduceLROnPlateau (src/reduce_lr_on_plateau.rs)

The `best` field is seeded with `f64::INFINITY` / `f64::NEG_INFINITY`, so it is
modelled by `EReal` (`ℝ` with `⊤`/`⊥`); metrics are finite `ℝ` values coerced
into `EReal` for the comparison.  The only divergence from IEEE arithmetic is
the corner `⊤ * 0` (Rust: NaN, `EReal`: 0), reachable only with
`threshold = 1` in `Rel` mode before any metric was seen; no claim depends on
it. -/

inductive Mode where
  | Min : Mode
  | Max : Mode

inductive ThresholdMode where
  | Rel : ThresholdMode
  | Abs : ThresholdMode

/-- State of `ReduceLROnPlateau`. -/
@[ext] structure ReduceLROnPlateau where
  lr : ℝ
  mode : Mode
  factor : ℝ
  patience : ℕ
  threshold : ℝ
  threshold_mode : ThresholdMode
  cooldown : ℕ
  min_lr : ℝ
  eps : ℝ
  best : EReal
  num_bad_epochs : ℕ
  cooldown_counter : ℕ

/-- Rust `ReduceLROnPlateau::new(lr, mode, factor, patience, threshold,
threshold_mode, cooldown, min_lr, eps)`. -/
noncomputable def ReduceLROnPlateau.new (lr : ℝ) (mode : Mode) (factor : ℝ)
    (patience : ℕ) (threshold : ℝ) (threshold_mode : ThresholdMode) (cooldown : ℕ)
    (min_lr eps : ℝ) : ReduceLROnPlateau :=
  { lr := lr
    mode := mode
    factor := factor
    patience := patience
    threshold := threshold
    threshold_mode := threshold_mode
    cooldown := cooldown
    min_lr := min_lr
    eps := eps
    best := match mode with
      | Mode.Min => (⊤ : EReal)
      | Mode.Max => (⊥ : EReal)
    num_bad_epochs := 0
    cooldown_counter := 0 }

/-- Rust `ReduceLROnPlateau::is_better(&self, current, best)`. -/
noncomputable def ReduceLROnPlateau.is_better (s : ReduceLROnPlateau)
    (current best : EReal) : Prop :=
  let threshold : EReal :=
    match s.threshold_mode, s.mode with
    | ThresholdMode.Rel, Mode.Min => best * (((1 : ℝ) - s.threshold : ℝ) : EReal)
    | ThresholdMode.Rel, Mode.Max => best * (((1 : ℝ) + s.threshold : ℝ) : EReal)
    | ThresholdMode.Abs, Mode.Min => best - (s.threshold : EReal)
    | ThresholdMode.Abs, Mode.Max => best + (s.threshold : EReal)
  match s.mode with
  | Mode.Min => current < threshold
  | Mode.Max => threshold < current

/-- Rust `ReduceLROnPlateau::in_cooldown(&self)`. -/
def ReduceLROnPlateau.in_cooldown (s : ReduceLROnPlateau) : Prop :=
  0 < s.cooldown_counter

/-- Rust `ReduceLROnPlateau::reduce_lr(&mut self)`: the `eps`-guarded assignment,
then the unconditional counter resets. -/
noncomputable def ReduceLROnPlateau.reduce_lr (s : ReduceLROnPlateau) :
    ReduceLROnPlateau :=
  let old_lr := s.lr
  let new_lr := max (old_lr * s.factor) s.min_lr
  { s with
    lr := if s.eps < |old_lr - new_lr| then new_lr else old_lr
    cooldown_counter := s.cooldown
    num_bad_epochs := 0 }

open scoped Classical in
/-- Rust `ReduceLROnPlateau::step(&mut self, loss)`. -/
noncomputable def ReduceLROnPlateau.stepFn (s : ReduceLROnPlateau) (loss : ℝ) :
    ReduceLROnPlateau :=
  let current : EReal := (loss : EReal)
  if s.in_cooldown then
    { s with
      cooldown_counter := s.cooldown_counter - 1
      best := if s.is_better current s.best then current else s.best }
  else
    let s1 :=
      if s.is_better current s.best then
        { s with best := current, num_bad_epochs := 0 }
      else
        { s with num_bad_epochs := s.num_bad_epochs + 1 }
    if s1.patience = 0 then
      if 0 < s1.num_bad_epochs then s1.reduce_lr else s1
    else if s1.patience ≤ s1.num_bad_epochs then s1.reduce_lr
    else s1

/-- Rust `ReduceLROnPlateau::get_lr(&self, _loss)`. -/
noncomputable def ReduceLROnPlateau.get_lr (s : ReduceLROnPlateau) (_loss : ℝ) : ℝ :=
  s.lr

/-! ### Claim theorems -/

/-- C8: for `ConstantLR` with any `base_lr`, `factor`, `total_iters` and
`init_step`, `get_lr` returns `factor * base_lr` whenever the internal counter
(`init_step` plus the number of `step` calls) is less than `total_iters` and
`base_lr` otherwise; in particular the rate switches to `base_lr` exactly when
the counter reaches `total_iters` and never changes again. -/
theorem constantLR_rate (b f : ℝ) (ti k n : ℕ) :
    (ConstantLR.stepIter n (ConstantLR.new b f ti k)).get_lr =
      if k + n < ti then f * b else b := by
  rw [ConstantLR.constant_stepIter_new]
  rfl

/-- C1: resumption equivalence.  For each of the nine schedulers whose
constructor takes an `init_step` offset, constructing at `init_step = k` yields
the same `get_lr()` as constructing at `init_step = 0` and calling `step` `k`
times.  (`OneCycleLR` and `CyclicLR` expose no `init_step`, so the claim is
vacuous for them, and `ReduceLROnPlateau` is excepted by the claim itself.)
For `StepLR` the two sides are compared as `Option`s: with `step_size = 0`
both constructions already panic in the division `init_step / step_size`. -/
theorem resumption_equivalence :
    (∀ (b f : ℝ) (ti k : ℕ),
      (ConstantLR.new b f ti k).get_lr =
        (ConstantLR.stepIter k (ConstantLR.new b f ti 0)).get_lr)
    ∧ (∀ (b g : ℝ) (k : ℕ),
      (ExponentialLR.new b g k).get_lr 0 =
        (ExponentialLR.stepIter k (ExponentialLR.new b g 0)).get_lr 0)
    ∧ (∀ (b g : ℝ) (ss k : ℕ),
      (StepLR.new b ss g k).map StepLR.lr =
        (StepLR.new b ss g 0).map (fun s => (StepLR.stepIter k s).lr))
    ∧ (∀ (b g : ℝ) (ms : List ℕ) (k : ℕ),
      (MultiStepLR.new b ms g k).get_lr =
        (MultiStepLR.stepIter k (MultiStepLR.new b ms g 0)).get_lr)
    ∧ (∀ (b sf ef : ℝ) (ti k : ℕ),
      (LinearLR.new b sf ef ti k).get_lr =
        (LinearLR.stepIter k (LinearLR.new b sf ef ti 0)).get_lr)
    ∧ (∀ (b p : ℝ) (ti k : ℕ),
      (PolynomialLR.new b ti p k).get_lr 0 =
        (PolynomialLR.stepIter k (PolynomialLR.new b ti p 0)).get_lr 0)
    ∧ (∀ (b : ℝ) (f : ℕ → ℝ) (k : ℕ),
      (MultiplicativeLR.new b f k).get_lr 0 =
        (MultiplicativeLR.stepIter k (MultiplicativeLR.new b f 0)).get_lr 0)
    ∧ (∀ (e0 e1 : ℝ) (t k : ℕ),
      (CosineAnnealingLR.new e0 e1 t k).get_lr =
        (CosineAnnealingLR.stepIter k (CosineAnnealingLR.new e0 e1 t 0)).get_lr)
    ∧ (∀ (e0 e1 : ℝ) (t0 m k : ℕ),
      (CosineAnnealingWarmRestarts.new e0 e1 t0 m k).get_lr 0 =
        (CosineAnnealingWarmRestarts.stepIter k
          (CosineAnnealingWarmRestarts.new e0 e1 t0 m 0)).get_lr 0) := by
  refine ⟨?_, ?_, ?_, ?_, ?_, ?_, ?_, ?_, ?_⟩
  · intro b f ti k
    rw [ConstantLR.constant_stepIter_new]
    simp [ConstantLR.get_lr, ConstantLR.new]
  · intro b g k
    rw [ExponentialLR.exponential_stepIter_new]
  · intro b g ss k
    match ss with
    | 0 => simp [StepLR.new, rustDiv?]
    | ss + 1 =>
      have h := StepLR.stepIter_state b g (ss + 1) 0 k
      simp at h
      simp [StepLR.new, rustDiv?, h]
  · intro b g ms k
    rw [MultiStepLR.multistep_stepIter_new]
  · intro b sf ef ti k
    rw [LinearLR.linear_stepIter_new]
    rw [LinearLR.new]
    by_cases h1 : ti ≤ k
    · simp [LinearLR.get_lr, h1, show ¬ k < ti by omega]
    · by_cases h2 : k = 0
      · subst h2
        simp [LinearLR.get_lr, show ¬ ti = 0 by omega, show ¬ ti ≤ 0 by omega,
          show (0 : ℕ) < ti by omega]
        ring
      · simp [LinearLR.get_lr, h1, h2, show k < ti by omega]
  · intro b p ti k
    rw [PolynomialLR.polynomial_stepIter_new]
    simp
  · intro b f k
    rw [MultiplicativeLR.multiplicative_stepIter_new]
  · intro e0 e1 t k
    rw [CosineAnnealingLR.cosine_stepIter_new]
  · intro e0 e1 t0 m k
    rw [CosineAnnealingWarmRestarts.warm_stepIter_new]
    rw [CosineAnnealingWarmRestarts.new]
    by_cases hk : k = 0
    · subst hk
      have h0 : restartFold (max m 1) 0 (max t0 1) = (0, max t0 1) := by
        rw [restartFold, if_neg (by omega)]
      simp [CosineAnnealingWarmRestarts.get_lr, h0,
        CosineAnnealingWarmRestarts.periodic_factor]
      norm_num
    · simp [CosineAnnealingWarmRestarts.get_lr, hk]

/-- C3: `get_lr` is a pure projection of the scheduler state for every
scheduler: it performs no mutation (its Lean type consumes no state), returns
the identical value on repeated calls on the same state, and its result does
not depend on the loss argument — including for `ReduceLROnPlateau`, whose
plateau logic only reads the metric passed to `step`. -/
theorem get_lr_pure :
    (∀ s : ConstantLR, s.get_lr = s.lr)
    ∧ (∀ (s : ExponentialLR) (l1 l2 : ℝ), s.get_lr l1 = s.get_lr l2 ∧ s.get_lr l1 = s.lr)
    ∧ (∀ (s : StepLR) (l1 l2 : ℝ), s.get_lr l1 = s.get_lr l2 ∧ s.get_lr l1 = s.lr)
    ∧ (∀ s : MultiStepLR, s.get_lr = s.lr)
    ∧ (∀ s : LinearLR, s.get_lr = s.lr)
    ∧ (∀ (s : PolynomialLR) (l1 l2 : ℝ), s.get_lr l1 = s.get_lr l2 ∧ s.get_lr l1 = s.lr)
    ∧ (∀ (s : MultiplicativeLR) (l1 l2 : ℝ),
        s.get_lr l1 = s.get_lr l2 ∧ s.get_lr l1 = s.lr)
    ∧ (∀ s : CosineAnnealingLR, s.get_lr = s.lr)
    ∧ (∀ (s : CosineAnnealingWarmRestarts) (l1 l2 : ℝ),
        s.get_lr l1 = s.get_lr l2 ∧ s.get_lr l1 = s.lr)
    ∧ (∀ (s : OneCycleLR) (l1 l2 : ℝ), s.get_lr l1 = s.get_lr l2)
    ∧ (∀ (s : CyclicLR) (l1 l2 : ℝ), s.get_lr l1 = s.get_lr l2)
    ∧ (∀ (s : ReduceLROnPlateau) (l1 l2 : ℝ),
        s.get_lr l1 = s.get_lr l2 ∧ s.get_lr l1 = s.lr) := by
  refine ⟨fun s => rfl, fun s l1 l2 => ⟨rfl, rfl⟩, fun s l1 l2 => ⟨rfl, rfl⟩,
    fun s => rfl, fun s => rfl, fun s l1 l2 => ⟨rfl, rfl⟩, fun s l1 l2 => ⟨rfl, rfl⟩,
    fun s => rfl, fun s l1 l2 => ⟨rfl, rfl⟩, fun s l1 l2 => rfl, fun s l1 l2 => rfl,
    fun s l1 l2 => ⟨rfl, rfl⟩⟩

/-- C2 counterexample: the claim that division by zero never reaches a division
operator un-guarded fails on `StepLR`: `StepLR::new` evaluates
`init_step / step_size` with no guard, so `step_size = 0` reaches the `usize`
division operator and panics (modelled by `none`) — here at the concrete input
`base_lr = 1`, `step_size = 0`, `gamma = 1`, `init_step = 0`. -/
theorem stepLR_unguarded_division : StepLR.new 1 0 1 0 = none := by
  simp [StepLR.new, rustDiv?]

/-- Lemma: `restartFold` keeps `t_max` positive when it starts positive and the
multiplier is positive. -/
lemma restartFold_one_le_snd (m : ℕ) (hm : 1 ≤ m) :
    ∀ step t, 1 ≤ t → 1 ≤ (restartFold m step t).2 := by
  intro step
  induction step using Nat.strong_induction_on with
  | _ step ih =>
    intro t ht
    rw [restartFold]
    by_cases h : t < step
    · rw [if_pos h]
      exact ih (step - (t + 1)) (by omega) (t * m) (Nat.one_le_iff_ne_zero.2 (by positivity))
    · rw [if_neg h]
      exact ht

/-- C2 amended: the guards named by the spec all hold — `t_max = 0` in
`CosineAnnealingLR` and `t_0 = 0`, `t_mult = 0` in
`CosineAnnealingWarmRestarts` are coerced to 1 (and stay ≥ 1), and
`total_iters = 0` is an immediately-saturated state in `PolynomialLR`
(rate 0) and `LinearLR` (rate `end_factor * base_lr`) with no division
evaluated — but the blanket "never in any scheduler" part fails: `StepLR`
divides by `step_size` and `CyclicLR` divides by
`step_size_up + step_size_down` un-guarded, and both panic on zero (`none`). -/
theorem division_guards :
    (∀ (e0 e1 : ℝ) (t k : ℕ),
      1 ≤ (CosineAnnealingLR.new e0 e1 t k).t_max
        ∧ (CosineAnnealingLR.new e0 e1 0 k).t_max = 1)
    ∧ (∀ (e0 e1 : ℝ) (t0 m k : ℕ),
      1 ≤ (CosineAnnealingWarmRestarts.new e0 e1 t0 m k).t_max
        ∧ 1 ≤ (CosineAnnealingWarmRestarts.new e0 e1 t0 m k).t_mult
        ∧ (CosineAnnealingWarmRestarts.new e0 e1 0 0 k).t_mult = 1)
    ∧ (∀ (b p : ℝ) (k n : ℕ),
      (PolynomialLR.stepIter n (PolynomialLR.new b 0 p k)).get_lr 0 = 0)
    ∧ (∀ (b sf ef : ℝ) (k n : ℕ),
      (LinearLR.stepIter n (LinearLR.new b sf ef 0 k)).get_lr = ef * b)
    ∧ (∀ (b g : ℝ) (k : ℕ), StepLR.new b 0 g k = none)
    ∧ (∀ (b m g l : ℝ) (mode : CyclicLRMode),
      (CyclicLR.new b m 0 none mode g).get_lr l = none) := by
  refine ⟨?_, ?_, ?_, ?_, ?_, ?_⟩
  · intro e0 e1 t k
    constructor
    · simp [CosineAnnealingLR.new]
    · simp [CosineAnnealingLR.new]
  · intro e0 e1 t0 m k
    refine ⟨?_, ?_, ?_⟩
    · rw [CosineAnnealingWarmRestarts.new]
      by_cases hk : k = 0
      · simp [hk]
      · simp [hk]
        exact restartFold_one_le_snd (max m 1) (by omega) k (max t0 1) (by omega)
    · rw [CosineAnnealingWarmRestarts.new]
      by_cases hk : k = 0 <;> simp [hk]
    · rw [CosineAnnealingWarmRestarts.new]
      by_cases hk : k = 0 <;> simp [hk]
  · intro b p k n
    rw [PolynomialLR.polynomial_stepIter_new]
    simp [PolynomialLR.new, PolynomialLR.get_lr]
  · intro b sf ef k n
    rw [LinearLR.linear_stepIter_new]
    simp [LinearLR.get_lr]
  · intro b g k
    simp [StepLR.new, rustDiv?]
  · intro b m g l mode
    simp [CyclicLR.new, CyclicLR.get_lr]

/-- C5: for `CosineAnnealingWarmRestarts`, after construction with any
`init_step` and after every `step`, the counter stays folded into
`0 ≤ step_cur ≤ t_max`, and the stored rate equals
`eta_1 + (eta_0 - eta_1) * 0.5 * (1 + cos(step_cur * π / t_max))`, computed
with no modulo. -/
theorem warmRestarts_invariant (e0 e1 : ℝ) (t0 m k n : ℕ) :
    (CosineAnnealingWarmRestarts.stepIter n
        (CosineAnnealingWarmRestarts.new e0 e1 t0 m k)).step_cur ≤
      (CosineAnnealingWarmRestarts.stepIter n
        (CosineAnnealingWarmRestarts.new e0 e1 t0 m k)).t_max
    ∧ (CosineAnnealingWarmRestarts.stepIter n
        (CosineAnnealingWarmRestarts.new e0 e1 t0 m k)).lr =
      e1 + (e0 - e1) * (0.5 * (1 + Real.cos
        (((CosineAnnealingWarmRestarts.stepIter n
            (CosineAnnealingWarmRestarts.new e0 e1 t0 m k)).step_cur : ℝ) * Real.pi
          / ((CosineAnnealingWarmRestarts.stepIter n
            (CosineAnnealingWarmRestarts.new e0 e1 t0 m k)).t_max : ℝ)))) := by
  have key : ∀ j, ((CosineAnnealingWarmRestarts.stepIter j
        (CosineAnnealingWarmRestarts.new e0 e1 t0 m k)).eta_0 = e0)
      ∧ ((CosineAnnealingWarmRestarts.stepIter j
        (CosineAnnealingWarmRestarts.new e0 e1 t0 m k)).eta_1 = e1)
      ∧ ((CosineAnnealingWarmRestarts.stepIter j
          (CosineAnnealingWarmRestarts.new e0 e1 t0 m k)).step_cur ≤
        (CosineAnnealingWarmRestarts.stepIter j
          (CosineAnnealingWarmRestarts.new e0 e1 t0 m k)).t_max)
      ∧ ((CosineAnnealingWarmRestarts.stepIter j
          (CosineAnnealingWarmRestarts.new e0 e1 t0 m k)).lr =
        e1 + (e0 - e1) * (0.5 * (1 + Real.cos
          (((CosineAnnealingWarmRestarts.stepIter j
              (CosineAnnealingWarmRestarts.new e0 e1 t0 m k)).step_cur : ℝ) * Real.pi
            / ((CosineAnnealingWarmRestarts.stepIter j
              (CosineAnnealingWarmRestarts.new e0 e1 t0 m k)).t_max : ℝ))))) := by
    intro j
    induction j with
    | zero =>
      rw [CosineAnnealingWarmRestarts.stepIter, CosineAnnealingWarmRestarts.new]
      by_cases hk : k = 0
      · simp [hk, CosineAnnealingWarmRestarts.periodic_factor]
        norm_num
      · simp [hk, CosineAnnealingWarmRestarts.periodic_factor]
        refine ⟨restartFold_fst_le_snd _ _ _, by ring⟩
    | succ j ih =>
      rw [CosineAnnealingWarmRestarts.stepIter]
      obtain ⟨h0, h1, _, _⟩ := ih
      simp [CosineAnnealingWarmRestarts.stepFn, CosineAnnealingWarmRestarts.periodic_factor,
        h0, h1]
      refine ⟨restartFold_fst_le_snd _ _ _, by ring⟩
  exact ⟨(key n).2.2.1, (key n).2.2.2⟩

/-- C7: for every step count at or beyond `total_iters` — any combination of
`init_step` and `step` calls — `PolynomialLR` returns exactly 0 (including
`total_iters = 0`) and `LinearLR` returns exactly `end_factor * base_lr`;
neither overshoots past its terminal value. -/
theorem terminal_clamp :
    (∀ (b p : ℝ) (ti k n : ℕ), ti ≤ k + n →
      (PolynomialLR.stepIter n (PolynomialLR.new b ti p k)).get_lr 0 = 0)
    ∧ (∀ (b sf ef : ℝ) (ti k n : ℕ), ti ≤ k + n →
      (LinearLR.stepIter n (LinearLR.new b sf ef ti k)).get_lr = ef * b) := by
  constructor
  · intro b p ti k n h
    rw [PolynomialLR.polynomial_stepIter_new]
    simp [PolynomialLR.new, PolynomialLR.get_lr, h]
  · intro b sf ef ti k n h
    rw [LinearLR.linear_stepIter_new]
    simp [LinearLR.get_lr, show ¬ (k + n < ti) by omega]

/-- Witness for C7 at concrete inputs: `PolynomialLR` with `total_iters = 0`
is saturated at rate 0 from the start, and `LinearLR` with `total_iters = 2`
reaches `end_factor * base_lr` after 2 steps. -/
theorem terminal_clamp_witness :
    ((0 : ℕ) ≤ 0 + 0
      ∧ (PolynomialLR.stepIter 0 (PolynomialLR.new 1 0 1 0)).get_lr 0 = 0)
    ∧ ((2 : ℕ) ≤ 0 + 2
      ∧ (LinearLR.stepIter 2 (LinearLR.new 1 2 (1/2) 2 0)).get_lr = (1/2) * 1) :=
  ⟨⟨by omega, terminal_clamp.1 1 1 0 0 0 (by omega)⟩,
   ⟨by omega, terminal_clamp.2 1 2 (1/2) 2 0 2 (by omega)⟩⟩

lemma cosineAnnealing_lr_closed (e0 e1 : ℝ) (t : ℕ) (ht : 1 ≤ t) (n : ℕ) :
    (CosineAnnealingLR.stepIter n (CosineAnnealingLR.new e0 e1 t 0)).get_lr =
      e1 + (e0 - e1) * (0.5 * (1 + Real.cos (((n % (2 * t) : ℕ) : ℝ) * Real.pi / t))) := by
  rw [CosineAnnealingLR.cosine_stepIter_new, CosineAnnealingLR.new]
  have hmax : max t 1 = t := by omega
  by_cases hn : n = 0
  · subst hn
    simp [CosineAnnealingLR.get_lr]
    norm_num
  · simp [CosineAnnealingLR.get_lr, hn, CosineAnnealingLR.periodic_factor, hmax]
    ring

lemma cos_three_pi_div_two : Real.cos ((3 : ℝ) * Real.pi / 2) = 0 := by
  have h : (3 : ℝ) * Real.pi / 2 = Real.pi + Real.pi / 2 := by ring
  rw [h, Real.cos_add, Real.cos_pi, Real.sin_pi, Real.cos_pi_div_two]
  ring

/-- C6: `CosineAnnealingLR` with `t_max ≥ 1` computes
`eta_1 + (eta_0 - eta_1) * 0.5 * (1 + cos((n mod 2*t_max) * π / t_max))` at
step `n`, is periodic with `lr(n) = lr(n mod 2*t_max)`, and for
`eta_0 = 1, eta_1 = 0, t_max = 2` the first five rates are
`[1, 0.5, 0, 0.5, 1]`. -/
theorem cosineAnnealing_formula :
    (∀ (e0 e1 : ℝ) (t : ℕ), 1 ≤ t → ∀ n : ℕ,
      (CosineAnnealingLR.stepIter n (CosineAnnealingLR.new e0 e1 t 0)).get_lr =
        e1 + (e0 - e1) * (0.5 * (1 + Real.cos (((n % (2 * t) : ℕ) : ℝ) * Real.pi / t)))
      ∧ (CosineAnnealingLR.stepIter n (CosineAnnealingLR.new e0 e1 t 0)).get_lr =
        (CosineAnnealingLR.stepIter (n % (2 * t))
          (CosineAnnealingLR.new e0 e1 t 0)).get_lr)
    ∧ ((CosineAnnealingLR.stepIter 0 (CosineAnnealingLR.new 1 0 2 0)).get_lr = 1
      ∧ (CosineAnnealingLR.stepIter 1 (CosineAnnealingLR.new 1 0 2 0)).get_lr = 0.5
      ∧ (CosineAnnealingLR.stepIter 2 (CosineAnnealingLR.new 1 0 2 0)).get_lr = 0
      ∧ (CosineAnnealingLR.stepIter 3 (CosineAnnealingLR.new 1 0 2 0)).get_lr = 0.5
      ∧ (CosineAnnealingLR.stepIter 4 (CosineAnnealingLR.new 1 0 2 0)).get_lr = 1) := by
  constructor
  · intro e0 e1 t ht n
    refine ⟨cosineAnnealing_lr_closed e0 e1 t ht n, ?_⟩
    rw [cosineAnnealing_lr_closed e0 e1 t ht n, cosineAnnealing_lr_closed e0 e1 t ht
      (n % (2 * t))]
    rw [Nat.mod_mod_of_dvd n (dvd_refl (2 * t))]
  · have h2 : (1 : ℕ) ≤ 2 := by omega
    refine ⟨?_, ?_, ?_, ?_, ?_⟩
    · rw [cosineAnnealing_lr_closed 1 0 2 h2 0]
      norm_num
    · rw [cosineAnnealing_lr_closed 1 0 2 h2 1]
      norm_num [Real.cos_pi_div_two]
    · rw [cosineAnnealing_lr_closed 1 0 2 h2 2]
      norm_num [show ((2 : ℕ) : ℝ) * Real.pi / 2 = Real.pi from by push_cast; ring,
        Real.cos_pi]
    · rw [cosineAnnealing_lr_closed 1 0 2 h2 3]
      norm_num [cos_three_pi_div_two]
    · rw [cosineAnnealing_lr_closed 1 0 2 h2 4]
      norm_num

/-- Witness for C6 at a concrete input: `t_max = 2` satisfies the hypothesis
and step 5 wraps around to step `5 mod 4 = 1`. -/
theorem cosineAnnealing_formula_witness :
    1 ≤ 2 ∧ (CosineAnnealingLR.stepIter 5 (CosineAnnealingLR.new 1 0 2 0)).get_lr =
      (CosineAnnealingLR.stepIter (5 % (2 * 2)) (CosineAnnealingLR.new 1 0 2 0)).get_lr :=
  ⟨by omega, (cosineAnnealing_formula.1 1 0 2 (by omega) 5).2⟩

/-- C9: in three-phase mode with `0 ≤ pct_start ≤ 1`, the phase lengths are
`warmup_steps = ⌊total_steps * pct_start⌋`,
`annealing_steps = ⌊total_steps * (1 - pct_start) / 2⌋`, and the three phases
sum exactly to `total_steps` (the leftover goes to the final phase). -/
theorem oneCycle_phase_split (ml : ℝ) (T : ℕ) (p : ℝ) (strat : AnnealStrategy)
    (df fdf : ℝ) (h0 : 0 ≤ p) (h1 : p ≤ 1) :
    (OneCycleLR.new ml T p strat df fdf true).warmup_steps = ⌊(T : ℝ) * p⌋₊
    ∧ (OneCycleLR.new ml T p strat df fdf true).annealing_steps =
        ⌊(T : ℝ) * (1 - p) / 2⌋₊
    ∧ (OneCycleLR.new ml T p strat df fdf true).warmup_steps
        + (OneCycleLR.new ml T p strat df fdf true).annealing_steps
        + (OneCycleLR.new ml T p strat df fdf true).final_annealing_steps = T := by
  have hw : (⌊(T : ℝ) * p⌋₊ : ℝ) ≤ (T : ℝ) * p :=
    Nat.floor_le (by positivity)
  have ha : (⌊(T : ℝ) * (1 - p) / 2⌋₊ : ℝ) ≤ (T : ℝ) * (1 - p) / 2 :=
    Nat.floor_le (by
      have : (0 : ℝ) ≤ 1 - p := by linarith
      positivity)
  have hsum : (⌊(T : ℝ) * p⌋₊ : ℝ) + (⌊(T : ℝ) * (1 - p) / 2⌋₊ : ℝ) ≤ (T : ℝ) := by
    nlinarith [Nat.cast_nonneg (α := ℝ) T]
  have hsum' : ⌊(T : ℝ) * p⌋₊ + ⌊(T : ℝ) * (1 - p) / 2⌋₊ ≤ T := by
    exact_mod_cast hsum
  refine ⟨rfl, rfl, ?_⟩
  simp [OneCycleLR.new]
  omega

/-- Witness for C9 at a concrete input: `total_steps = 60`, `pct_start = 0.3`
(so warmup 18, annealing 21, final 21, summing to 60). -/
theorem oneCycle_phase_split_witness :
    (0 : ℝ) ≤ 0.3 ∧ (0.3 : ℝ) ≤ 1
    ∧ (OneCycleLR.new 0.1 60 0.3 AnnealStrategy.Cos 25 10000 true).warmup_steps
        + (OneCycleLR.new 0.1 60 0.3 AnnealStrategy.Cos 25 10000 true).annealing_steps
        + (OneCycleLR.new 0.1 60 0.3 AnnealStrategy.Cos 25 10000 true).final_annealing_steps
      = 60 :=
  ⟨by norm_num, by norm_num,
    (oneCycle_phase_split 0.1 60 0.3 AnnealStrategy.Cos 25 10000
      (by norm_num) (by norm_num)).2.2⟩

/-- C4: whenever the plateau reduction triggers — the counters are out of
cooldown, the metric is not an improvement, and either `patience = 0` (any bad
epoch) or `patience ≤ bad_epochs + 1` — the stepped state has
`lr = max(lr*factor, min_lr)` if `|old - new| > eps` and the old `lr`
otherwise, the bad-epoch counter reset to 0, and the cooldown counter set to
`cooldown`. -/
theorem plateau_reduction (s : ReduceLROnPlateau) (m : ℝ)
    (hc : s.cooldown_counter = 0)
    (hb : ¬ s.is_better ((m : ℝ) : EReal) s.best)
    (ht : s.patience = 0 ∨ s.patience ≤ s.num_bad_epochs + 1) :
    (s.stepFn m).lr =
      (if s.eps < |s.lr - max (s.lr * s.factor) s.min_lr|
        then max (s.lr * s.factor) s.min_lr else s.lr)
    ∧ (s.stepFn m).num_bad_epochs = 0
    ∧ (s.stepFn m).cooldown_counter = s.cooldown := by
  have hcool : ¬ s.in_cooldown := by
    simp [ReduceLROnPlateau.in_cooldown, hc]
  have hstep : s.stepFn m =
      ({ s with num_bad_epochs := s.num_bad_epochs + 1 } : ReduceLROnPlateau).reduce_lr := by
    rw [ReduceLROnPlateau.stepFn]
    simp only [if_neg hcool, if_neg hb]
    by_cases hp : s.patience = 0
    · simp [hp]
    · have hle : s.patience ≤ s.num_bad_epochs + 1 := ht.resolve_left hp
      simp [hp, hle]
  rw [hstep, ReduceLROnPlateau.reduce_lr]
  exact ⟨rfl, rfl, rfl⟩

/-- A concrete plateau state used by the witness of `plateau_reduction`:
`lr = 0.1`, `Min`/`Abs`, `factor = 0.5`, `patience = 1`, `cooldown = 3`,
`best = 1`. -/
noncomputable def plateauSample : ReduceLROnPlateau :=
  { lr := 0.1
    mode := Mode.Min
    factor := 0.5
    patience := 1
    threshold := 0.001
    threshold_mode := ThresholdMode.Abs
    cooldown := 3
    min_lr := 0
    eps := 1e-8
    best := ((1 : ℝ) : EReal)
    num_bad_epochs := 0
    cooldown_counter := 0 }

/-- Witness for C4: feeding metric 2 (worse than best 1) to `plateauSample`
triggers the reduction and yields `lr = 0.05`, bad epochs 0, cooldown 3. -/
theorem plateau_reduction_witness :
    (plateauSample.cooldown_counter = 0
      ∧ ¬ plateauSample.is_better ((2 : ℝ) : EReal) plateauSample.best
      ∧ (plateauSample.patience = 0
          ∨ plateauSample.patience ≤ plateauSample.num_bad_epochs + 1))
    ∧ (plateauSample.stepFn 2).lr = 0.05
    ∧ (plateauSample.stepFn 2).num_bad_epochs = 0
    ∧ (plateauSample.stepFn 2).cooldown_counter = 3 := by
  have hb : ¬ plateauSample.is_better ((2 : ℝ) : EReal) plateauSample.best := by
    rw [ReduceLROnPlateau.is_better]
    simp only [plateauSample]
    rw [← EReal.coe_sub]
    rw [EReal.coe_lt_coe_iff]
    norm_num
  have h := plateau_reduction plateauSample 2 rfl hb (Or.inr (by simp [plateauSample]))
  refine ⟨⟨rfl, hb, Or.inr (by simp [plateauSample])⟩, ?_, h.2.1, h.2.2⟩
  rw [h.1]
  have hmax : max ((0.1 : ℝ) * 0.5) 0 = 0.05 := by
    rw [max_eq_left (by norm_num)]
    norm_num
  simp only [plateauSample]
  rw [hmax]
  rw [show |(0.1 : ℝ) - 0.05| = 0.05 from by
    rw [show (0.1 : ℝ) - 0.05 = 0.05 from by norm_num]
    exact abs_of_pos (by norm_num)]
  rw [if_pos (by norm_num : (1e-8 : ℝ) < 0.05)]

/-- Lemma: `reduce_lr` and every branch of `step` keep `min_lr ≤ lr` and leave the
`min_lr` field unchanged. -/
lemma plateau_step_min_lr (s : ReduceLROnPlateau) (m : ℝ) (h : s.min_lr ≤ s.lr) :
    (s.stepFn m).min_lr = s.min_lr ∧ s.min_lr ≤ (s.stepFn m).lr := by
  simp only [ReduceLROnPlateau.stepFn, ReduceLROnPlateau.reduce_lr]
  split_ifs <;> refine ⟨rfl, ?_⟩ <;> first | exact h | exact le_max_right _ _

/-- C10: for `ReduceLROnPlateau` constructed with `lr ≥ min_lr`, the rate
reported by `get_lr` after any sequence of metrics stays `≥ min_lr`: the only
assignment to `lr` is `max(lr*factor, min_lr)`. -/
theorem plateau_min_lr_bound (lr0 : ℝ) (mode : Mode) (factor : ℝ) (patience : ℕ)
    (threshold : ℝ) (tm : ThresholdMode) (cooldown : ℕ) (min_lr eps : ℝ)
    (metrics : List ℝ) (l : ℝ) (h : min_lr ≤ lr0) :
    min_lr ≤ (metrics.foldl ReduceLROnPlateau.stepFn
      (ReduceLROnPlateau.new lr0 mode factor patience threshold tm cooldown
        min_lr eps)).get_lr l := by
  have inv : ∀ (ms : List ℝ) (s : ReduceLROnPlateau), s.min_lr = min_lr →
      min_lr ≤ s.lr →
      (ms.foldl ReduceLROnPlateau.stepFn s).min_lr = min_lr
        ∧ min_lr ≤ (ms.foldl ReduceLROnPlateau.stepFn s).lr := by
    intro ms
    induction ms with
    | nil => exact fun s h1 h2 => ⟨h1, h2⟩
    | cons a ms ih =>
      intro s h1 h2
      have hs := plateau_step_min_lr s a (by rw [h1]; exact h2)
      refine ih (s.stepFn a) (hs.1.trans h1) ?_
      rw [← h1]
      exact hs.2
  exact (inv metrics _ rfl h).2

/-- Witness for C10 at a concrete input: `lr = 0.1 ≥ min_lr = 0` with an empty
metric sequence. -/
theorem plateau_min_lr_bound_witness :
    (0 : ℝ) ≤ 0.1
    ∧ (0 : ℝ) ≤ (([] : List ℝ).foldl ReduceLROnPlateau.stepFn
      (ReduceLROnPlateau.new 0.1 Mode.Min 0.5 2 0.001 ThresholdMode.Abs 0 0
        (1e-8))).get_lr 0 :=
  ⟨by norm_num,
    plateau_min_lr_bound 0.1 Mode.Min 0.5 2 0.001 ThresholdMode.Abs 0 0 (1e-8) [] 0
      (by norm_num)⟩

end LrSchedulers
